import Mathlib

/-!
Shallow embedding of the CHIP-8 emulator core from `src/chip8.rs` together
with the buffer-copy step of `load_game`.  Machine integers (`u8`, `usize`)
are modelled as `Nat` with explicit `% 256` at the points where the Rust
code performs wrapping arithmetic.  Every Rust panic — the explicit
`panic!` calls, slice/array index-out-of-bounds, and the debug-mode
`usize` subtraction overflow in `self.sp -= 1` — is modelled as an
`Except.error` carrying the panic site's kind, since a panic aborts the
instruction stream with no recoverable state.
-/

/-- Kinds of Rust panics the emulator can hit: the explicit
`panic!("Unknown opcode ...")` calls, the explicit
`panic!("Font set is only for character 0 to F!")` in FX29, any implicit
array/slice index-out-of-bounds, and the debug-mode subtract-with-overflow
in `self.sp -= 1`. -/
inductive Panic where
  | unknownOpcode (op : Nat)
  | fontRange
  | indexOOB
  | subOverflow
deriving DecidableEq, Repr

/-- Pointwise update of a `Nat`-indexed array model. -/
def upd (f : Nat → Nat) (k x : Nat) : Nat → Nat :=
  fun a => if a = k then x else f a

/-- The 80-byte FONT_SET constant. -/
def fontSet : List Nat :=
  [0xF0, 0x90, 0x90, 0x90, 0xF0,
   0x20, 0x60, 0x20, 0x20, 0x70,
   0xF0, 0x10, 0xF0, 0x80, 0xF0,
   0xF0, 0x10, 0xF0, 0x10, 0xF0,
   0x90, 0x90, 0xF0, 0x10, 0x10,
   0xF0, 0x80, 0xF0, 0x10, 0xF0,
   0xF0, 0x80, 0xF0, 0x90, 0xF0,
   0xF0, 0x10, 0x20, 0x40, 0x40,
   0xF0, 0x90, 0xF0, 0x90, 0xF0,
   0xF0, 0x90, 0xF0, 0x10, 0xF0,
   0xF0, 0x90, 0xF0, 0x90, 0x90,
   0xE0, 0x90, 0xE0, 0x90, 0xE0,
   0xF0, 0x80, 0x80, 0x80, 0xF0,
   0xE0, 0x90, 0x90, 0x90, 0xE0,
   0xF0, 0x80, 0xF0, 0x80, 0xF0,
   0xF0, 0x80, 0xF0, 0x80, 0x80]

/-- The `Chip8` struct: memory is 4096 bytes, `v` the 16 8-bit registers,
`stack` holds 24 return addresses, `screen` the 64×32 = 2048 pixel cells,
`key` the 16 key states.  Fixed-size arrays are modelled as functions out
of `Nat`; every access derived from runtime data is bounds-checked at the
access site exactly where Rust's indexing would panic. -/
structure Chip8 where
  opcode : Nat
  memory : Nat → Nat
  v : Nat → Nat
  addr_reg : Nat
  pc : Nat
  stack : Nat → Nat
  sp : Nat
  screen : Nat → Nat
  draw_flag : Bool
  key : Nat → Nat
  delay_timer : Nat
  sound_timer : Nat

/-- `Chip8::init()`: everything zeroed, font set loaded at address 0,
program counter at 0x200. -/
def Chip8.init : Chip8 where
  opcode := 0
  memory := fun a => fontSet.getD a 0
  v := fun _ => 0
  addr_reg := 0
  pc := 0x200
  stack := fun _ => 0
  sp := 0
  screen := fun _ => 0
  draw_flag := false
  key := fun _ => 0
  delay_timer := 0
  sound_timer := 0

/-- The buffer-copy step of `Chip8::load_game`: after the file is read
into `buffer`, the code runs
`self.memory[PC_START..(buf_size + PC_START)].clone_from_slice(&buffer[..buf_size])`.
Slicing `memory[0x200..0x200+len]` panics (index out of bounds) whenever
`0x200 + len > 4096`; there is no `ProgramTooLarge` error variant.  On
success it returns `Ok(buf_size)`. -/
def load_game (buffer : List Nat) (s : Chip8) : Except Panic (Chip8 × Nat) :=
  if 0x200 + buffer.length ≤ 4096 then
    .ok ({s with memory := fun a =>
            if 0x200 ≤ a ∧ a < 0x200 + buffer.length then buffer.getD (a - 0x200) 0
            else s.memory a},
         buffer.length)
  else .error .indexOOB

/-- Opcode family 0: `00E0` clears the screen, `00EE` returns from a
subroutine (`self.sp -= 1; self.pc = self.stack[self.sp]`, so an empty
stack hits the debug-mode subtract overflow), anything else panics
`Unknown opcode`. -/
def opcode_0 (s : Chip8) : Except Panic Chip8 :=
  if s.opcode = 0x00E0 then
    .ok {s with screen := fun _ => 0, pc := s.pc + 2, draw_flag := true}
  else if s.opcode = 0x00EE then
    if s.sp = 0 then .error .subOverflow
    else if s.sp - 1 < 24 then .ok {s with sp := s.sp - 1, pc := s.stack (s.sp - 1)}
    else .error .indexOOB
  else .error (.unknownOpcode s.opcode)

/-- Opcode `1NNN`: jump to NNN. -/
def opcode_1 (s : Chip8) : Except Panic Chip8 :=
  .ok {s with pc := s.opcode &&& 0x0FFF}

/-- Opcode `2NNN`: `self.stack[self.sp] = self.pc + 2; self.sp += 1;
self.pc = NNN`.  The store `stack[sp]` panics when `sp ≥ 24`
(STACK_SIZE). -/
def opcode_2 (s : Chip8) : Except Panic Chip8 :=
  if s.sp < 24 then
    .ok {s with stack := upd s.stack s.sp (s.pc + 2), sp := s.sp + 1,
                pc := s.opcode &&& 0x0FFF}
  else .error .indexOOB

/-- Opcode `3XNN`: skip next instruction if vX == NN. -/
def opcode_3 (s : Chip8) : Except Panic Chip8 :=
  let x := (s.opcode &&& 0x0F00) >>> 8
  let nn := s.opcode &&& 0x00FF
  if s.v x = nn then .ok {s with pc := s.pc + 4} else .ok {s with pc := s.pc + 2}

/-- Opcode `4XNN`: skip next instruction if vX != NN. -/
def opcode_4 (s : Chip8) : Except Panic Chip8 :=
  let x := (s.opcode &&& 0x0F00) >>> 8
  let nn := s.opcode &&& 0x00FF
  if s.v x ≠ nn then .ok {s with pc := s.pc + 4} else .ok {s with pc := s.pc + 2}

/-- Opcode family 5 (`5XY0`): the source comment reads "let's just ignore
if 4 lsb is not 0", so any `5XYk` is executed as skip-if-vX-equals-vY. -/
def opcode_5 (s : Chip8) : Except Panic Chip8 :=
  let x := (s.opcode &&& 0x0F00) >>> 8
  let y := (s.opcode &&& 0x00F0) >>> 4
  if s.v x = s.v y then .ok {s with pc := s.pc + 4} else .ok {s with pc := s.pc + 2}

/-- Opcode `6XNN`: vX := NN. -/
def opcode_6 (s : Chip8) : Except Panic Chip8 :=
  .ok {s with v := upd s.v ((s.opcode &&& 0x0F00) >>> 8) (s.opcode &&& 0x00FF),
              pc := s.pc + 2}

/-- Opcode `7XNN`: vX := vX.wrapping_add(NN). -/
def opcode_7 (s : Chip8) : Except Panic Chip8 :=
  let i := (s.opcode &&& 0x0F00) >>> 8
  .ok {s with v := upd s.v i ((s.v i + (s.opcode &&& 0x00FF)) % 256), pc := s.pc + 2}

/-- Opcode family 8.  `overflowing_add a b` on `u8` is embedded as
`((a + b) % 256, 256 ≤ a + b)` and `overflowing_sub a b` as
`((a + 256 - b) % 256, a < b)`, both exact for byte-valued inputs.  The
flag write to `v[0xF]` happens before the result write to `v[x]`, and in
the shift arms the shifted value is re-read from the register file after
the flag write, exactly as in the Rust statement order. -/
def opcode_8 (s : Chip8) : Except Panic Chip8 :=
  let x := (s.opcode &&& 0x0F00) >>> 8
  let y := (s.opcode &&& 0x00F0) >>> 4
  let k := s.opcode &&& 0x000F
  if k = 0x0 then .ok {s with v := upd s.v x (s.v y), pc := s.pc + 2}
  else if k = 0x1 then .ok {s with v := upd s.v x (s.v x ||| s.v y), pc := s.pc + 2}
  else if k = 0x2 then .ok {s with v := upd s.v x (s.v x &&& s.v y), pc := s.pc + 2}
  else if k = 0x3 then .ok {s with v := upd s.v x (s.v x ^^^ s.v y), pc := s.pc + 2}
  else if k = 0x4 then
    .ok {s with v := upd (upd s.v 0xF (if 256 ≤ s.v x + s.v y then 1 else 0))
                        x ((s.v x + s.v y) % 256),
                pc := s.pc + 2}
  else if k = 0x5 then
    .ok {s with v := upd (upd s.v 0xF (if s.v x < s.v y then 0 else 1))
                        x ((s.v x + 256 - s.v y) % 256),
                pc := s.pc + 2}
  else if k = 0x6 then
    let v1 := upd s.v 0xF (s.v x &&& 0x01)
    .ok {s with v := upd v1 x (v1 x >>> 1), pc := s.pc + 2}
  else if k = 0x7 then
    .ok {s with v := upd (upd s.v 0xF (if s.v y < s.v x then 0 else 1))
                        x ((s.v y + 256 - s.v x) % 256),
                pc := s.pc + 2}
  else if k = 0xE then
    let v1 := upd s.v 0xF ((s.v x &&& 0x80) >>> 7)
    .ok {s with v := upd v1 x ((v1 x <<< 1) % 256), pc := s.pc + 2}
  else .error (.unknownOpcode s.opcode)

/-- Opcode family 9 (`9XY0`): like family 5 the low nibble is ignored;
skip if vX != vY. -/
def opcode_9 (s : Chip8) : Except Panic Chip8 :=
  let x := (s.opcode &&& 0x0F00) >>> 8
  let y := (s.opcode &&& 0x00F0) >>> 4
  if s.v x ≠ s.v y then .ok {s with pc := s.pc + 4} else .ok {s with pc := s.pc + 2}

/-- Opcode `ANNN`: I := NNN. -/
def opcode_a (s : Chip8) : Except Panic Chip8 :=
  .ok {s with addr_reg := s.opcode &&& 0x0FFF, pc := s.pc + 2}

/-- Opcode `BNNN`: PC := v0 + NNN. -/
def opcode_b (s : Chip8) : Except Panic Chip8 :=
  .ok {s with pc := s.v 0 + (s.opcode &&& 0x0FFF)}

/-- Opcode `CXNN`: vX := random byte AND NN.  The byte sampled from
`rand::thread_rng().gen_range(0, 256)` is supplied as the `rnd`
argument. -/
def opcode_c (rnd : Nat) (s : Chip8) : Except Panic Chip8 :=
  let x := (s.opcode &&& 0x0F00) >>> 8
  let nn := s.opcode &&& 0x00FF
  .ok {s with v := upd s.v x ((rnd % 256) &&& nn), pc := s.pc + 2}

/-- Inner column loop of `DXYN`: for the 8 sprite bits of one row, a set
bit at column `col` targets `screen[x + col + yb * 64]` with no clipping
or wrapping; an index ≥ 2048 panics.  The collision check reads the pixel
before it is XOR-toggled. -/
def drawCols (xc yb sprite : Nat) : Nat → Nat → (Nat → Nat) → Nat →
    Except Panic ((Nat → Nat) × Nat)
  | _, 0, scr, vf => .ok (scr, vf)
  | col, k + 1, scr, vf =>
    if sprite &&& (0x80 >>> col) ≠ 0 then
      if xc + col + yb * 64 < 2048 then
        drawCols xc yb sprite (col + 1) k
          (upd scr (xc + col + yb * 64) (scr (xc + col + yb * 64) ^^^ 1))
          (if scr (xc + col + yb * 64) = 1 then 1 else vf)
      else .error .indexOOB
    else drawCols xc yb sprite (col + 1) k scr vf

/-- Outer row loop of `DXYN`: row `row` reads its sprite byte from
`memory[row + addr_reg]` (panics if out of bounds) and draws it at screen
row `y + row`. -/
def drawRows (mem : Nat → Nat) (ar xc y : Nat) : Nat → Nat → (Nat → Nat) → Nat →
    Except Panic ((Nat → Nat) × Nat)
  | _, 0, scr, vf => .ok (scr, vf)
  | row, k + 1, scr, vf =>
    if row + ar < 4096 then
      match drawCols xc (y + row) (mem (row + ar)) 0 8 scr vf with
      | .ok (scr1, vf1) => drawRows mem ar xc y (row + 1) k scr1 vf1
      | .error e => .error e
    else .error .indexOOB

/-- Opcode `DXYN`: draw the N-row sprite at `(vX, vY)`.  `v[0xF]` is
cleared before the loops and set sticky to 1 on any 1→0 pixel flip;
`addr_reg` is not modified; PC advances by 2 and the draw flag is set. -/
def opcode_d (s : Chip8) : Except Panic Chip8 :=
  let x := s.v ((s.opcode &&& 0x0F00) >>> 8)
  let y := s.v ((s.opcode &&& 0x00F0) >>> 4)
  let h := s.opcode &&& 0x000F
  match drawRows s.memory s.addr_reg x y 0 h s.screen 0 with
  | .ok (scr, vf) =>
    .ok {s with v := upd s.v 0xF vf, screen := scr, pc := s.pc + 2, draw_flag := true}
  | .error e => .error e

/-- Opcode family E: `EX9E` / `EXA1` skip on key state.  The lookup
`self.key[self.v[x] as usize]` panics whenever `vX ≥ 16` (KEY_SIZE);
anything else panics `Unknown opcode`. -/
def opcode_e (s : Chip8) : Except Panic Chip8 :=
  let x := (s.opcode &&& 0x0F00) >>> 8
  let nn := s.opcode &&& 0x00FF
  if nn = 0x9E then
    if s.v x < 16 then
      if s.key (s.v x) ≠ 0 then .ok {s with pc := s.pc + 4}
      else .ok {s with pc := s.pc + 2}
    else .error .indexOOB
  else if nn = 0xA1 then
    if s.v x < 16 then
      if s.key (s.v x) = 0 then .ok {s with pc := s.pc + 4}
      else .ok {s with pc := s.pc + 2}
    else .error .indexOOB
  else .error (.unknownOpcode s.opcode)

/-- Register-dump loop of `FX55`: `for i in 0..x+1 { memory[addr_reg + i] = v[i] }`,
with each store bounds-checked like the Rust indexing. -/
def storeRegsLoop (ar : Nat) (v : Nat → Nat) : Nat → Nat → (Nat → Nat) →
    Except Panic (Nat → Nat)
  | _, 0, mem => .ok mem
  | i, k + 1, mem =>
    if ar + i < 4096 then storeRegsLoop ar v (i + 1) k (upd mem (ar + i) (v i))
    else .error .indexOOB

/-- Register-load loop of `FX65`: `for i in 0..x+1 { v[i] = memory[addr_reg + i] }`. -/
def loadRegsLoop (ar : Nat) (mem : Nat → Nat) : Nat → Nat → (Nat → Nat) →
    Except Panic (Nat → Nat)
  | _, 0, v => .ok v
  | i, k + 1, v =>
    if ar + i < 4096 then loadRegsLoop ar mem (i + 1) k (upd v i (mem (ar + i)))
    else .error .indexOOB

/-- Opcode family F.  The `FX0A` arm is the literal source: an empty
`TODO` block that changes nothing at all (no PC advance, no wait state —
the struct has no wait-register field).  `FX29` panics when `vX > 0xF`.
`FX33` writes the BCD digits of vX at `I`, `I+1`, `I+2`.  `FX55`/`FX65`
dump/load `v0..vX` without touching `addr_reg`.  Unmatched low bytes
panic `Unknown opcode`. -/
def opcode_f (s : Chip8) : Except Panic Chip8 :=
  let x := (s.opcode &&& 0x0F00) >>> 8
  let nn := s.opcode &&& 0x00FF
  if nn = 0x07 then .ok {s with v := upd s.v x s.delay_timer, pc := s.pc + 2}
  else if nn = 0x0A then .ok s
  else if nn = 0x15 then .ok {s with delay_timer := s.v x, pc := s.pc + 2}
  else if nn = 0x18 then .ok {s with sound_timer := s.v x, pc := s.pc + 2}
  else if nn = 0x1E then .ok {s with addr_reg := s.addr_reg + s.v x, pc := s.pc + 2}
  else if nn = 0x29 then
    if 0x0F < s.v x then .error .fontRange
    else .ok {s with addr_reg := s.v x * 5, pc := s.pc + 2}
  else if nn = 0x33 then
    if s.addr_reg + 2 < 4096 then
      .ok {s with memory := upd (upd (upd s.memory
                    s.addr_reg (s.v x / 100))
                    (s.addr_reg + 1) (s.v x / 10 % 10))
                    (s.addr_reg + 2) (s.v x % 100 % 10),
                  pc := s.pc + 2}
    else .error .indexOOB
  else if nn = 0x55 then
    match storeRegsLoop s.addr_reg s.v 0 (x + 1) s.memory with
    | .ok m => .ok {s with memory := m, pc := s.pc + 2}
    | .error e => .error e
  else if nn = 0x65 then
    match loadRegsLoop s.addr_reg s.memory 0 (x + 1) s.v with
    | .ok w => .ok {s with v := w, pc := s.pc + 2}
    | .error e => .error e
  else .error (.unknownOpcode s.opcode)

/-- The decode-execute dispatch of `Chip8::emulate`: match on
`opcode & 0xF000`. -/
def dispatch (rnd : Nat) (s : Chip8) : Except Panic Chip8 :=
  let m := s.opcode &&& 0xF000
  if m = 0x0000 then opcode_0 s
  else if m = 0x1000 then opcode_1 s
  else if m = 0x2000 then opcode_2 s
  else if m = 0x3000 then opcode_3 s
  else if m = 0x4000 then opcode_4 s
  else if m = 0x5000 then opcode_5 s
  else if m = 0x6000 then opcode_6 s
  else if m = 0x7000 then opcode_7 s
  else if m = 0x8000 then opcode_8 s
  else if m = 0x9000 then opcode_9 s
  else if m = 0xA000 then opcode_a s
  else if m = 0xB000 then opcode_b s
  else if m = 0xC000 then opcode_c rnd s
  else if m = 0xD000 then opcode_d s
  else if m = 0xE000 then opcode_e s
  else if m = 0xF000 then opcode_f s
  else .error (.unknownOpcode s.opcode)

/-- Fetch-decode-execute part of `Chip8::emulate`: the two fetched bytes
at `pc` and `pc+1` are combined big-endian into `self.opcode`
(panicking if the fetch indexes past memory), then dispatched. -/
def execInstr (rnd : Nat) (s : Chip8) : Except Panic Chip8 :=
  if s.pc + 1 < 4096 then
    dispatch rnd {s with opcode := s.memory s.pc <<< 8 ||| s.memory (s.pc + 1)}
  else .error .indexOOB

/-- The timer block at the end of `Chip8::emulate`: each timer is
decremented when positive. -/
def updateTimers (s : Chip8) : Chip8 :=
  let s1 := if s.delay_timer > 0 then {s with delay_timer := s.delay_timer - 1} else s
  if s1.sound_timer > 0 then {s1 with sound_timer := s1.sound_timer - 1} else s1

/-- `Chip8::emulate`: fetch, decode, execute one instruction, then update
both timers.  A panic during execution aborts before the timer block. -/
def emulate (rnd : Nat) (s : Chip8) : Except Panic Chip8 :=
  match execInstr rnd s with
  | .ok t => .ok (updateTimers t)
  | .error e => .error e

/-!
Bridging lemmas from the source's bit-masking idioms to `Nat` div/mod
arithmetic, so that `omega` can reason about decoded opcode fields.
-/

theorem or256 (hi lo : Nat) (h : lo < 256) : hi <<< 8 ||| lo = 256 * hi + lo := by
  have h8 : lo < 2 ^ 8 := by norm_num; omega
  have h2 := Nat.mul_add_lt_is_or (i := 8) h8 hi
  rw [Nat.shiftLeft_eq]
  norm_num at h2 ⊢
  rw [Nat.mul_comm hi 256]
  exact h2.symm

theorem mask_fff (op : Nat) : op &&& 0x0FFF = op % 4096 := by
  have h : (0x0FFF : Nat) = 2 ^ 12 - 1 := by norm_num
  rw [h, Nat.and_pow_two_sub_one_eq_mod]

theorem mask_ff (op : Nat) : op &&& 0x00FF = op % 256 := by
  have h : (0x00FF : Nat) = 2 ^ 8 - 1 := by norm_num
  rw [h, Nat.and_pow_two_sub_one_eq_mod]

theorem mask_f (op : Nat) : op &&& 0x000F = op % 16 := by
  have h : (0x000F : Nat) = 2 ^ 4 - 1 := by norm_num
  rw [h, Nat.and_pow_two_sub_one_eq_mod]

theorem shift_and_shift (op m k : Nat) :
    (op &&& (m <<< k)) >>> k = (op >>> k) &&& m := by
  apply Nat.eq_of_testBit_eq
  intro j
  simp [Nat.testBit_shiftRight, Nat.testBit_and, Nat.testBit_shiftLeft]

theorem mask_x (op : Nat) : (op &&& 0x0F00) >>> 8 = op / 256 % 16 := by
  have h1 : (0x0F00 : Nat) = 0xF <<< 8 := by norm_num [Nat.shiftLeft_eq]
  rw [h1, shift_and_shift, Nat.shiftRight_eq_div_pow, mask_f]

theorem mask_y (op : Nat) : (op &&& 0x00F0) >>> 4 = op / 16 % 16 := by
  have h1 : (0x00F0 : Nat) = 0xF <<< 4 := by norm_num [Nat.shiftLeft_eq]
  rw [h1, shift_and_shift, Nat.shiftRight_eq_div_pow, mask_f]

theorem and_shifted (op m k : Nat) : op &&& (m <<< k) = ((op >>> k) &&& m) <<< k := by
  apply Nat.eq_of_testBit_eq
  intro j
  simp only [Nat.testBit_and, Nat.testBit_shiftLeft, Nat.testBit_shiftRight]
  by_cases hj : k ≤ j
  · simp [hj, Nat.add_sub_cancel' hj]
  · simp [hj]

theorem mask_fam (op : Nat) : op &&& 0xF000 = op / 4096 % 16 * 4096 := by
  have h1 : (0xF000 : Nat) = 0xF <<< 12 := by norm_num [Nat.shiftLeft_eq]
  rw [h1, and_shifted, Nat.shiftRight_eq_div_pow, mask_f, Nat.shiftLeft_eq]

/-!
Characterizations of the FX55/FX65 register dump and load loops.
-/

theorem storeRegsLoop_ok (ar : Nat) (v : Nat → Nat) :
    ∀ k i mem, ar + i + k ≤ 4096 →
    storeRegsLoop ar v i k mem =
      .ok (fun a => if ar + i ≤ a ∧ a < ar + i + k then v (a - ar) else mem a) := by
  intro k
  induction k with
  | zero =>
    intro i mem h
    simp only [storeRegsLoop]
    congr 1
    funext a
    rw [if_neg (by omega)]
  | succ k ih =>
    intro i mem h
    simp only [storeRegsLoop]
    rw [if_pos (show ar + i < 4096 by omega),
        ih (i + 1) (upd mem (ar + i) (v i)) (by omega)]
    congr 1
    funext a
    simp only [upd]
    split_ifs <;>
      first
      | rfl
      | omega
      | (have hh : a - ar = i := by omega
         rw [hh])

theorem loadRegsLoop_ok (ar : Nat) (mem : Nat → Nat) :
    ∀ k i v, ar + i + k ≤ 4096 →
    loadRegsLoop ar mem i k v =
      .ok (fun j => if i ≤ j ∧ j < i + k then mem (ar + j) else v j) := by
  intro k
  induction k with
  | zero =>
    intro i v h
    simp only [loadRegsLoop]
    congr 1
    funext j
    rw [if_neg (by omega)]
  | succ k ih =>
    intro i v h
    simp only [loadRegsLoop]
    rw [if_pos (show ar + i < 4096 by omega),
        ih (i + 1) (upd v i (mem (ar + i))) (by omega)]
    congr 1
    funext j
    simp only [upd]
    split_ifs <;>
      first
      | rfl
      | omega
      | (have hh : j = i := by omega
         rw [hh])

theorem updateTimers_eq (t : Chip8) :
    updateTimers t =
      {t with delay_timer := t.delay_timer - 1, sound_timer := t.sound_timer - 1} := by
  cases t with
  | mk op mem v ar pc st sp scr df key d snd =>
    unfold updateTimers
    by_cases h1 : d > 0 <;> by_cases h2 : snd > 0 <;> simp_all

/-- C10: every `emulate` call, after executing one instruction, applies the
timer block to the post-instruction state: each timer is decremented by one
when positive, saturating at zero (`Nat` subtraction), so timer countdown
is coupled one-to-one to instruction execution. -/
theorem emulate_decrements_timers (rnd : Nat) (s : Chip8) :
    emulate rnd s = (execInstr rnd s).map
      (fun t => {t with delay_timer := t.delay_timer - 1,
                        sound_timer := t.sound_timer - 1}) := by
  unfold emulate
  cases h : execInstr rnd s <;> simp [Except.map, updateTimers_eq]

/-- Program image for C1's failing and succeeding loads is irrelevant; the
states below set up concrete machines for the concrete evaluations. -/
def c2state : Chip8 :=
  { Chip8.init with
      memory := fun a =>
        if a = 0x200 then 0xD0 else if a = 0x201 then 0x11 else
        if a = 0x300 then 0xFF else 0,
      v := fun i => if i = 0 then 60 else if i = 1 then 31 else 0,
      addr_reg := 0x300 }

def c3state : Chip8 :=
  { Chip8.init with
      memory := fun a => if a = 0x200 then 0xF5 else if a = 0x201 then 0x0A else 0,
      delay_timer := 5 }

def c4ret : Chip8 :=
  { Chip8.init with
      memory := fun a => if a = 0x201 then 0xEE else 0 }

def c4call : Chip8 :=
  { Chip8.init with
      memory := fun a => if a = 0x200 then 0x23 else if a = 0x201 then 0x45 else 0,
      sp := 24 }

/-- C1: `load_game` has no `ProgramTooLarge` path.  A 3585-byte buffer
(one over the 4096 − 0x200 = 3584 limit) makes the slice operation panic
(index out of bounds), while buffers of length ≤ 3584 are copied to 0x200
and succeed, returning the byte count. -/
theorem load_game_bounds_check_missing :
    load_game (List.replicate 3585 0) Chip8.init = .error .indexOOB ∧
    (load_game [0xAB, 0xCD] Chip8.init).map
        (fun p => (p.1.memory 0x200, p.1.memory 0x201, p.1.memory 0x202, p.2)) =
      .ok (0xAB, 0xCD, 0, 2) ∧
    (load_game (List.replicate 3584 7) Chip8.init).map
        (fun p => (p.1.memory 0x200, p.1.memory 0xFFF, p.2)) =
      .ok (7, 7, 3584) := by
  refine ⟨?_, rfl, ?_⟩
  · simp only [load_game, List.length_replicate]
    norm_num
  · simp only [load_game, List.length_replicate]
    rw [if_pos (by norm_num)]
    simp only [Except.map]
    norm_num [List.getD_eq_getElem?_getD, List.getElem?_replicate]

/-- C2: the draw opcode neither clips nor wraps: with VX = 60, VY = 31,
N = 1 and sprite byte 0xFF at I, the computed framebuffer index reaches
60 + 4 + 31·64 = 2048 ≥ 2048 and the screen indexing panics. -/
theorem draw_out_of_range_panic : emulate 0 c2state = .error .indexOOB := rfl

/-- C3: FX0A is an unimplemented TODO arm: executing 0xF50A leaves PC at
0x200 (the same instruction will be fetched again forever), still
decrements the delay timer from 5 to 4 (so "blocked" steps do change VM
state), never writes a key into V5, and reports plain success — there is
no Blocked status and no wait-state field in the struct. -/
theorem fx0a_wait_unimplemented :
    (emulate 0 c3state).map (fun t => (t.pc, t.delay_timer, t.v 5, t.opcode)) =
      .ok (0x200, 4, 0, 0xF50A) := rfl

/-- C4: executing 00EE with an empty stack hits the debug-mode
subtract-with-overflow panic in `self.sp -= 1`, and executing 2NNN with
the stack full (sp = 24) panics indexing `stack[24]`; neither returns a
`Fatal(StackUnderflow)` / `Fatal(StackOverflow)` value — no such error
kinds or step-result type exist in the code. -/
theorem stack_underflow_overflow_panic :
    emulate 0 c4ret = .error .subOverflow ∧ emulate 0 c4call = .error .indexOOB :=
  ⟨rfl, rfl⟩

deriving instance DecidableEq for Except

/-!
Helper lemmas: one-step reductions for the dispatcher and the `opcode_f`
arms used by the general theorems below.
-/

theorem execInstr_eq (rnd : Nat) (s : Chip8) (hpc : s.pc + 1 < 4096) :
    execInstr rnd s =
      dispatch rnd {s with opcode := s.memory s.pc <<< 8 ||| s.memory (s.pc + 1)} := by
  unfold execInstr
  rw [if_pos hpc]

theorem emulate_ok (rnd : Nat) (s t : Chip8) (h : execInstr rnd s = .ok t) :
    emulate rnd s = .ok (updateTimers t) := by
  unfold emulate
  rw [h]

theorem dispatch_fam_f (rnd : Nat) (s : Chip8) (h : s.opcode &&& 0xF000 = 0xF000) :
    dispatch rnd s = opcode_f s := by
  unfold dispatch
  simp [h]

def c5state : Chip8 :=
  { Chip8.init with
      memory := fun a => if a = 0x200 then 0xF5 else if a = 0x201 then 0x15 else 0,
      v := fun i => if i = 5 then 19 else 0 }

/-- C5 counterexample: after a step executing FX15 (0xF515, V5 = 19) the
delay timer is 18, not the 19 the claim promises: `emulate` itself
decrements the timers right after the instruction (the repository's own
`test_opcode_f_15` asserts 18). -/
theorem fx15_delay_counterexample :
    (emulate 0 c5state).map Chip8.delay_timer ≠ .ok (c5state.v 5) := by decide

/-- C5 amended: a step that executes FX15 first sets the delay timer to
VX and then runs the timer block of the same `emulate` call, so
immediately after the step the delay timer is VX − 1 (saturating at 0)
rather than VX, the sound timer has also been decremented, and PC has
advanced by 2; there is no separate `tick_timers` cadence in the code. -/
theorem fx15_sets_delay_then_tick (rnd : Nat) (s : Chip8) (X : Nat) (hX : X < 16)
    (h0 : s.memory s.pc = 0xF0 + X) (h1 : s.memory (s.pc + 1) = 0x15)
    (hpc : s.pc + 1 < 4096) :
    emulate rnd s = .ok {s with opcode := 0xF015 + 256 * X,
                                delay_timer := s.v X - 1,
                                sound_timer := s.sound_timer - 1,
                                pc := s.pc + 2} := by
  have hop : s.memory s.pc <<< 8 ||| s.memory (s.pc + 1) = 0xF015 + 256 * X := by
    rw [h0, h1, or256 _ _ (by norm_num)]
    ring
  have hm : (0xF015 + 256 * X) &&& 0xF000 = 0xF000 := by
    rw [mask_fam]; omega
  have hx : ((0xF015 + 256 * X) &&& 0x0F00) >>> 8 = X := by
    rw [mask_x]; omega
  have hnn : (0xF015 + 256 * X) &&& 0x00FF = 0x15 := by
    rw [mask_ff]; omega
  have hstep : execInstr rnd s =
      .ok {s with opcode := 0xF015 + 256 * X, delay_timer := s.v X, pc := s.pc + 2} := by
    rw [execInstr_eq rnd s hpc, hop, dispatch_fam_f rnd _ hm]
    unfold opcode_f
    simp [hnn, hx]
  rw [emulate_ok rnd s _ hstep, updateTimers_eq]

theorem fx15_sets_delay_then_tick_witness :
    emulate 0 c5state = .ok {c5state with opcode := 0xF015 + 256 * 5,
                                          delay_timer := c5state.v 5 - 1,
                                          sound_timer := c5state.sound_timer - 1,
                                          pc := c5state.pc + 2} :=
  fx15_sets_delay_then_tick 0 c5state 5 (by decide) rfl rfl (by decide)

def c7state : Chip8 :=
  { Chip8.init with
      opcode := 0x8F15,
      v := fun i => if i = 15 then 5 else if i = 1 then 3 else 0 }

/-- C7 counterexample: executing 8XY5 with X = 0xF (opcode 0x8F15,
VF = 5, V1 = 3) must set VF to 1 per the claim (no borrow), but the code
writes the flag first and then overwrites `v[x] = v[0xF]` with the wrapped
difference 2. -/
theorem sub_borrow_vf_counterexample :
    (opcode_8 c7state).map (fun t => t.v 15) ≠ .ok 1 := by decide

/-- C7 amended: 8XY5 sets VX to (VX − VY) mod 256 and advances PC by 2 for
every X and Y; the no-borrow flag (1 when old VX ≥ old VY, else 0) is
written to VF before the result write, so it is the final VF exactly when
X ≠ 0xF — when X = 0xF the result write overwrites the flag and VF ends
as the wrapped difference. -/
theorem sub_borrow_semantics (s : Chip8) (X Y : Nat) (hX : X < 16) (hY : Y < 16)
    (hop : s.opcode = 0x8005 + 256 * X + 16 * Y) :
    opcode_8 s = .ok {s with
        v := upd (upd s.v 0xF (if s.v X < s.v Y then 0 else 1))
                 X ((s.v X + 256 - s.v Y) % 256),
        pc := s.pc + 2} ∧
    (upd (upd s.v 0xF (if s.v X < s.v Y then 0 else 1))
         X ((s.v X + 256 - s.v Y) % 256)) X = (s.v X + 256 - s.v Y) % 256 ∧
    (X ≠ 0xF →
      (upd (upd s.v 0xF (if s.v X < s.v Y then 0 else 1))
           X ((s.v X + 256 - s.v Y) % 256)) 0xF = (if s.v X < s.v Y then 0 else 1)) := by
  have hx : (s.opcode &&& 0x0F00) >>> 8 = X := by rw [hop, mask_x]; omega
  have hy : (s.opcode &&& 0x00F0) >>> 4 = Y := by rw [hop, mask_y]; omega
  have hk : s.opcode &&& 0x000F = 5 := by rw [hop, mask_f]; omega
  refine ⟨?_, ?_, ?_⟩
  · unfold opcode_8
    simp [hx, hy, hk]
  · simp [upd]
  · intro hne
    simp [upd, hne, Ne.symm hne]

def c7w : Chip8 :=
  { Chip8.init with
      opcode := 0x85A5,
      v := fun i => if i = 5 then 0x78 else if i = 0xA then 0x24 else 0 }

theorem sub_borrow_semantics_witness :
    opcode_8 c7w = .ok {c7w with
        v := upd (upd c7w.v 0xF (if c7w.v 5 < c7w.v 10 then 0 else 1))
                 5 ((c7w.v 5 + 256 - c7w.v 10) % 256),
        pc := c7w.pc + 2} ∧
    (upd (upd c7w.v 0xF (if c7w.v 5 < c7w.v 10 then 0 else 1))
         5 ((c7w.v 5 + 256 - c7w.v 10) % 256)) 5 = (c7w.v 5 + 256 - c7w.v 10) % 256 ∧
    (5 ≠ 0xF →
      (upd (upd c7w.v 0xF (if c7w.v 5 < c7w.v 10 then 0 else 1))
           5 ((c7w.v 5 + 256 - c7w.v 10) % 256)) 0xF =
        (if c7w.v 5 < c7w.v 10 then 0 else 1)) :=
  sub_borrow_semantics c7w 5 10 (by decide) (by decide) rfl

theorem dispatch_fam_0 (rnd : Nat) (s : Chip8) (h : s.opcode &&& 0xF000 = 0x0000) :
    dispatch rnd s = opcode_0 s := by
  unfold dispatch
  simp [h]

theorem dispatch_fam_5 (rnd : Nat) (s : Chip8) (h : s.opcode &&& 0xF000 = 0x5000) :
    dispatch rnd s = opcode_5 s := by
  unfold dispatch
  simp [h]

theorem dispatch_fam_8 (rnd : Nat) (s : Chip8) (h : s.opcode &&& 0xF000 = 0x8000) :
    dispatch rnd s = opcode_8 s := by
  unfold dispatch
  simp [h]

theorem dispatch_fam_9 (rnd : Nat) (s : Chip8) (h : s.opcode &&& 0xF000 = 0x9000) :
    dispatch rnd s = opcode_9 s := by
  unfold dispatch
  simp [h]

theorem dispatch_fam_e (rnd : Nat) (s : Chip8) (h : s.opcode &&& 0xF000 = 0xE000) :
    dispatch rnd s = opcode_e s := by
  unfold dispatch
  simp [h]

def c6state : Chip8 :=
  { Chip8.init with
      memory := fun a => if a = 0x200 then 0x51 else if a = 0x201 then 0x21 else 0 }

/-- C6 counterexample: opcode 0x5121 matches no pattern of the semantics
table (5XYk with k = 1), yet the step succeeds — no fatal of any kind —
and executes it as the defined skip instruction 5XY0 (V1 = V2 = 0, so PC
jumps from 0x200 to 0x204). -/
theorem invalid_encoding_counterexample :
    (emulate 0 c6state).map Chip8.pc = .ok 0x204 ∧
    (emulate 0 c6state).isOk = true := by
  refine ⟨rfl, rfl⟩

/-- C6 amended: unrecognized encodings in the families with secondary
dispatch — family 0 (other than 00E0/00EE), family 8 (selector not in
{0..7, E}), family E (low byte not in {9E, A1}) and family F (low byte not
in {07, 0A, 15, 18, 1E, 29, 33, 55, 65}) — all panic `Unknown opcode`
(fatal), but `5XYk` and `9XYk` with k ≠ 0 are not routed to a fatal: the
low nibble is ignored and they execute as the defined skips 5XY0 / 9XY0. -/
theorem unknown_opcode_routing :
    (∀ rnd (s : Chip8), s.opcode &&& 0xF000 = 0x0000 →
        s.opcode ≠ 0x00E0 → s.opcode ≠ 0x00EE →
        dispatch rnd s = .error (.unknownOpcode s.opcode)) ∧
    (∀ rnd (s : Chip8), s.opcode &&& 0xF000 = 0x8000 →
        s.opcode &&& 0x000F ≠ 0x0 → s.opcode &&& 0x000F ≠ 0x1 →
        s.opcode &&& 0x000F ≠ 0x2 → s.opcode &&& 0x000F ≠ 0x3 →
        s.opcode &&& 0x000F ≠ 0x4 → s.opcode &&& 0x000F ≠ 0x5 →
        s.opcode &&& 0x000F ≠ 0x6 → s.opcode &&& 0x000F ≠ 0x7 →
        s.opcode &&& 0x000F ≠ 0xE →
        dispatch rnd s = .error (.unknownOpcode s.opcode)) ∧
    (∀ rnd (s : Chip8), s.opcode &&& 0xF000 = 0xE000 →
        s.opcode &&& 0x00FF ≠ 0x9E → s.opcode &&& 0x00FF ≠ 0xA1 →
        dispatch rnd s = .error (.unknownOpcode s.opcode)) ∧
    (∀ rnd (s : Chip8), s.opcode &&& 0xF000 = 0xF000 →
        s.opcode &&& 0x00FF ≠ 0x07 → s.opcode &&& 0x00FF ≠ 0x0A →
        s.opcode &&& 0x00FF ≠ 0x15 → s.opcode &&& 0x00FF ≠ 0x18 →
        s.opcode &&& 0x00FF ≠ 0x1E → s.opcode &&& 0x00FF ≠ 0x29 →
        s.opcode &&& 0x00FF ≠ 0x33 → s.opcode &&& 0x00FF ≠ 0x55 →
        s.opcode &&& 0x00FF ≠ 0x65 →
        dispatch rnd s = .error (.unknownOpcode s.opcode)) ∧
    (∀ rnd (s : Chip8), s.opcode &&& 0xF000 = 0x5000 →
        s.opcode &&& 0x000F ≠ 0x0 →
        dispatch rnd s = .ok {s with pc := s.pc +
          (if s.v ((s.opcode &&& 0x0F00) >>> 8) = s.v ((s.opcode &&& 0x00F0) >>> 4)
           then 4 else 2)}) ∧
    (∀ rnd (s : Chip8), s.opcode &&& 0xF000 = 0x9000 →
        s.opcode &&& 0x000F ≠ 0x0 →
        dispatch rnd s = .ok {s with pc := s.pc +
          (if s.v ((s.opcode &&& 0x0F00) >>> 8) = s.v ((s.opcode &&& 0x00F0) >>> 4)
           then 2 else 4)}) := by
  refine ⟨?_, ?_, ?_, ?_, ?_, ?_⟩
  · intro rnd s h h1 h2
    rw [dispatch_fam_0 rnd s h]
    unfold opcode_0
    rw [if_neg h1, if_neg h2]
  · intro rnd s h hk0 hk1 hk2 hk3 hk4 hk5 hk6 hk7 hkE
    rw [dispatch_fam_8 rnd s h]
    unfold opcode_8
    simp [hk0, hk1, hk2, hk3, hk4, hk5, hk6, hk7, hkE]
  · intro rnd s h h1 h2
    rw [dispatch_fam_e rnd s h]
    unfold opcode_e
    simp [h1, h2]
  · intro rnd s h h1 h2 h3 h4 h5 h6 h7 h8 h9
    rw [dispatch_fam_f rnd s h]
    unfold opcode_f
    simp [h1, h2, h3, h4, h5, h6, h7, h8, h9]
  · intro rnd s h hk
    rw [dispatch_fam_5 rnd s h]
    unfold opcode_5
    by_cases hc : s.v ((s.opcode &&& 0x0F00) >>> 8) = s.v ((s.opcode &&& 0x00F0) >>> 4) <;>
      simp [hc]
  · intro rnd s h hk
    rw [dispatch_fam_9 rnd s h]
    unfold opcode_9
    by_cases hc : s.v ((s.opcode &&& 0x0F00) >>> 8) = s.v ((s.opcode &&& 0x00F0) >>> 4) <;>
      simp [hc]

def c6w : Chip8 := { Chip8.init with opcode := 0xF777 }

theorem unknown_opcode_routing_witness :
    dispatch 0 c6w = .error (.unknownOpcode 0xF777) :=
  unknown_opcode_routing.2.2.2.1 0 c6w rfl (by decide) (by decide) (by decide)
    (by decide) (by decide) (by decide) (by decide) (by decide) (by decide)

theorem emulate_fx55 (rnd : Nat) (s : Chip8) (X : Nat) (hX : X < 16)
    (h0 : s.memory s.pc = 0xF0 + X) (h1 : s.memory (s.pc + 1) = 0x55)
    (hpc : s.pc + 1 < 4096) (har : s.addr_reg + X < 4096) :
    emulate rnd s = .ok {s with
      opcode := 0xF055 + 256 * X,
      memory := fun a =>
        if s.addr_reg ≤ a ∧ a < s.addr_reg + X + 1 then s.v (a - s.addr_reg)
        else s.memory a,
      pc := s.pc + 2,
      delay_timer := s.delay_timer - 1,
      sound_timer := s.sound_timer - 1} := by
  have hop : s.memory s.pc <<< 8 ||| s.memory (s.pc + 1) = 0xF055 + 256 * X := by
    rw [h0, h1, or256 _ _ (by norm_num)]
    ring
  have hm : (0xF055 + 256 * X) &&& 0xF000 = 0xF000 := by rw [mask_fam]; omega
  have hx : ((0xF055 + 256 * X) &&& 0x0F00) >>> 8 = X := by rw [mask_x]; omega
  have hnn : (0xF055 + 256 * X) &&& 0x00FF = 0x55 := by rw [mask_ff]; omega
  have hstep : execInstr rnd s = .ok {s with
      opcode := 0xF055 + 256 * X,
      memory := fun a =>
        if s.addr_reg ≤ a ∧ a < s.addr_reg + X + 1 then s.v (a - s.addr_reg)
        else s.memory a,
      pc := s.pc + 2} := by
    rw [execInstr_eq rnd s hpc, hop, dispatch_fam_f rnd _ hm]
    unfold opcode_f
    simp only [hnn, hx]
    norm_num
    rw [storeRegsLoop_ok s.addr_reg s.v (X + 1) 0 s.memory (by omega)]
    simp [Nat.add_assoc]
  rw [emulate_ok rnd s _ hstep, updateTimers_eq]

theorem emulate_fx65 (rnd : Nat) (s : Chip8) (X : Nat) (hX : X < 16)
    (h0 : s.memory s.pc = 0xF0 + X) (h1 : s.memory (s.pc + 1) = 0x65)
    (hpc : s.pc + 1 < 4096) (har : s.addr_reg + X < 4096) :
    emulate rnd s = .ok {s with
      opcode := 0xF065 + 256 * X,
      v := fun j => if j < X + 1 then s.memory (s.addr_reg + j) else s.v j,
      pc := s.pc + 2,
      delay_timer := s.delay_timer - 1,
      sound_timer := s.sound_timer - 1} := by
  have hop : s.memory s.pc <<< 8 ||| s.memory (s.pc + 1) = 0xF065 + 256 * X := by
    rw [h0, h1, or256 _ _ (by norm_num)]
    ring
  have hm : (0xF065 + 256 * X) &&& 0xF000 = 0xF000 := by rw [mask_fam]; omega
  have hx : ((0xF065 + 256 * X) &&& 0x0F00) >>> 8 = X := by rw [mask_x]; omega
  have hnn : (0xF065 + 256 * X) &&& 0x00FF = 0x65 := by rw [mask_ff]; omega
  have hstep : execInstr rnd s = .ok {s with
      opcode := 0xF065 + 256 * X,
      v := fun j => if j < X + 1 then s.memory (s.addr_reg + j) else s.v j,
      pc := s.pc + 2} := by
    rw [execInstr_eq rnd s hpc, hop, dispatch_fam_f rnd _ hm]
    unfold opcode_f
    simp only [hnn, hx]
    norm_num
    rw [loadRegsLoop_ok s.addr_reg s.memory (X + 1) 0 s.v (by omega)]
    simp
  rw [emulate_ok rnd s _ hstep, updateTimers_eq]

/-- C8: with FX55 at PC and FX65 (same X) at PC+2, the dump/load region
`[I, I+X]` in bounds and disjoint from the two instruction words,
executing both steps restores every register V0..VX to its value before
the dump, and neither step modifies I. -/
theorem reg_dump_load_roundtrip (r1 r2 : Nat) (s : Chip8) (X : Nat)
    (hX : X < 16)
    (h0 : s.memory s.pc = 0xF0 + X) (h1 : s.memory (s.pc + 1) = 0x55)
    (h2 : s.memory (s.pc + 2) = 0xF0 + X) (h3 : s.memory (s.pc + 3) = 0x65)
    (hpc : s.pc + 3 < 4096)
    (har : s.addr_reg + X < 4096)
    (hdisj : s.addr_reg + X < s.pc ∨ s.pc + 3 < s.addr_reg) :
    ∃ s1 s2, emulate r1 s = .ok s1 ∧ emulate r2 s1 = .ok s2 ∧
      s1.addr_reg = s.addr_reg ∧ s2.addr_reg = s.addr_reg ∧
      (∀ i, i ≤ X → s2.v i = s.v i) := by
  have e1 := emulate_fx55 r1 s X hX h0 h1 (by omega) har
  have e2 := emulate_fx65 r2 {s with
      opcode := 0xF055 + 256 * X,
      memory := fun a =>
        if s.addr_reg ≤ a ∧ a < s.addr_reg + X + 1 then s.v (a - s.addr_reg)
        else s.memory a,
      pc := s.pc + 2,
      delay_timer := s.delay_timer - 1,
      sound_timer := s.sound_timer - 1} X hX
    (by show (if s.addr_reg ≤ s.pc + 2 ∧ s.pc + 2 < s.addr_reg + X + 1
              then s.v (s.pc + 2 - s.addr_reg) else s.memory (s.pc + 2)) = 0xF0 + X
        rw [if_neg (by omega)]
        exact h2)
    (by show (if s.addr_reg ≤ s.pc + 2 + 1 ∧ s.pc + 2 + 1 < s.addr_reg + X + 1
              then s.v (s.pc + 2 + 1 - s.addr_reg) else s.memory (s.pc + 2 + 1)) = 0x65
        rw [if_neg (by omega), show s.pc + 2 + 1 = s.pc + 3 from by omega]
        exact h3)
    (by show s.pc + 2 + 1 < 4096
        omega)
    (by show s.addr_reg + X < 4096
        exact har)
  refine ⟨_, _, e1, e2, rfl, rfl, ?_⟩
  intro i hi
  show (if i < X + 1
        then (if s.addr_reg ≤ s.addr_reg + i ∧ s.addr_reg + i < s.addr_reg + X + 1
              then s.v (s.addr_reg + i - s.addr_reg) else s.memory (s.addr_reg + i))
        else s.v i) = s.v i
  rw [if_pos (by omega), if_pos (by omega),
      show s.addr_reg + i - s.addr_reg = i from by omega]

def c8w : Chip8 :=
  { Chip8.init with
      memory := fun a =>
        if a = 0x200 then 0xF3 else if a = 0x201 then 0x55 else
        if a = 0x202 then 0xF3 else if a = 0x203 then 0x65 else 0,
      v := fun i => 40 + i,
      addr_reg := 0x300 }

theorem reg_dump_load_roundtrip_witness :
    ∃ s1 s2, emulate 0 c8w = .ok s1 ∧ emulate 0 s1 = .ok s2 ∧
      s1.addr_reg = c8w.addr_reg ∧ s2.addr_reg = c8w.addr_reg ∧
      (∀ i, i ≤ 3 → s2.v i = c8w.v i) :=
  reg_dump_load_roundtrip 0 0 c8w 3 (by decide) rfl rfl rfl rfl (by decide)
    (by decide) (Or.inr (by decide))

/-!
Characterization of the DXYN draw loops.  `hitCol`/`hitRows` decide
whether a framebuffer cell is toggled by the sprite; `colCollide`/
`rowCollide` decide whether some set sprite bit lands on a framebuffer
cell that currently holds 1 (the collision condition feeding VF).
-/

def hitCol (sprite xc yb : Nat) : Nat → Nat → Nat → Bool
  | _, 0, _ => false
  | col, k + 1, c =>
    (decide (sprite &&& (0x80 >>> col) ≠ 0) && decide (c = xc + col + yb * 64)) ||
    hitCol sprite xc yb (col + 1) k c

def colCollide (sprite xc yb : Nat) (scr : Nat → Nat) : Nat → Nat → Bool
  | _, 0 => false
  | col, k + 1 =>
    (decide (sprite &&& (0x80 >>> col) ≠ 0) && decide (scr (xc + col + yb * 64) = 1)) ||
    colCollide sprite xc yb scr (col + 1) k

def hitRows (mem : Nat → Nat) (ar xc y : Nat) : Nat → Nat → Nat → Bool
  | _, 0, _ => false
  | row, k + 1, c =>
    hitCol (mem (row + ar)) xc (y + row) 0 8 c ||
    hitRows mem ar xc y (row + 1) k c

def rowCollide (mem : Nat → Nat) (ar xc y : Nat) (scr : Nat → Nat) : Nat → Nat → Bool
  | _, 0 => false
  | row, k + 1 =>
    colCollide (mem (row + ar)) xc (y + row) scr 0 8 ||
    rowCollide mem ar xc y scr (row + 1) k

theorem hitCol_bounds (sprite xc yb : Nat) :
    ∀ k col c, hitCol sprite xc yb col k c = true →
      xc + col + yb * 64 ≤ c ∧ c < xc + col + k + yb * 64 := by
  intro k
  induction k with
  | zero => intro col c h; simp [hitCol] at h
  | succ k ih =>
    intro col c h
    simp only [hitCol, Bool.or_eq_true, Bool.and_eq_true, decide_eq_true_eq] at h
    rcases h with ⟨-, h⟩ | h
    · omega
    · have := ih (col + 1) c h
      omega

theorem hitRows_lower (mem : Nat → Nat) (ar xc y : Nat) :
    ∀ k row c, hitRows mem ar xc y row k c = true →
      xc + (y + row) * 64 ≤ c := by
  intro k
  induction k with
  | zero => intro row c h; simp [hitRows] at h
  | succ k ih =>
    intro row c h
    simp only [hitRows, Bool.or_eq_true] at h
    rcases h with h | h
    · have := hitCol_bounds (mem (row + ar)) xc (y + row) 8 0 c h
      omega
    · have := ih (row + 1) c h
      omega

theorem colCollide_congr (sprite xc yb : Nat) :
    ∀ k col (scr1 scr2 : Nat → Nat),
      (∀ j, col ≤ j → j < col + k → scr1 (xc + j + yb * 64) = scr2 (xc + j + yb * 64)) →
      colCollide sprite xc yb scr1 col k = colCollide sprite xc yb scr2 col k := by
  intro k
  induction k with
  | zero => intro col scr1 scr2 _; simp [colCollide]
  | succ k ih =>
    intro col scr1 scr2 h
    simp only [colCollide]
    rw [h col (by omega) (by omega), ih (col + 1) scr1 scr2 (fun j h1 h2 => h j (by omega) (by omega))]

theorem colCollide_false (sprite xc yb : Nat) (scr : Nat → Nat)
    (hscr : ∀ c, scr c ≠ 1) :
    ∀ k col, colCollide sprite xc yb scr col k = false := by
  intro k
  induction k with
  | zero => intro col; simp [colCollide]
  | succ k ih =>
    intro col
    simp [colCollide, ih (col + 1), hscr (xc + col + yb * 64)]

theorem rowCollide_false (mem : Nat → Nat) (ar xc y : Nat) (scr : Nat → Nat)
    (hscr : ∀ c, scr c ≠ 1) :
    ∀ k row, rowCollide mem ar xc y scr row k = false := by
  intro k
  induction k with
  | zero => intro row; simp [rowCollide]
  | succ k ih =>
    intro row
    simp [rowCollide, ih (row + 1), colCollide_false _ _ _ _ hscr]

theorem colCollide_true (sprite xc yb : Nat) (scr : Nat → Nat) (j : Nat)
    (hbit : sprite &&& (0x80 >>> j) ≠ 0) (hscr : scr (xc + j + yb * 64) = 1) :
    ∀ k col, col ≤ j → j < col + k → colCollide sprite xc yb scr col k = true := by
  intro k
  induction k with
  | zero => intro col h1 h2; omega
  | succ k ih =>
    intro col h1 h2
    simp only [colCollide, Bool.or_eq_true, Bool.and_eq_true, decide_eq_true_eq]
    by_cases hj : j = col
    · subst hj
      exact Or.inl ⟨hbit, hscr⟩
    · exact Or.inr (ih (col + 1) (by omega) (by omega))

theorem hitCol_true (sprite xc yb : Nat) (j : Nat)
    (hbit : sprite &&& (0x80 >>> j) ≠ 0) :
    ∀ k col, col ≤ j → j < col + k →
      hitCol sprite xc yb col k (xc + j + yb * 64) = true := by
  intro k
  induction k with
  | zero => intro col h1 h2; omega
  | succ k ih =>
    intro col h1 h2
    simp only [hitCol, Bool.or_eq_true, Bool.and_eq_true, decide_eq_true_eq]
    by_cases hj : j = col
    · subst hj
      exact Or.inl ⟨hbit, rfl⟩
    · exact Or.inr (ih (col + 1) (by omega) (by omega))

theorem rowCollide_true (mem : Nat → Nat) (ar xc y : Nat) (scr : Nat → Nat)
    (r j : Nat) (hj : j < 8)
    (hbit : mem (r + ar) &&& (0x80 >>> j) ≠ 0)
    (hscr : scr (xc + j + (y + r) * 64) = 1) :
    ∀ k row, row ≤ r → r < row + k → rowCollide mem ar xc y scr row k = true := by
  intro k
  induction k with
  | zero => intro row h1 h2; omega
  | succ k ih =>
    intro row h1 h2
    simp only [rowCollide, Bool.or_eq_true]
    by_cases hr : r = row
    · subst hr
      exact Or.inl (colCollide_true _ _ _ _ j hbit hscr 8 0 (by omega) (by omega))
    · exact Or.inr (ih (row + 1) (by omega) (by omega))

theorem hitRows_true (mem : Nat → Nat) (ar xc y : Nat) (r j : Nat) (hj : j < 8)
    (hbit : mem (r + ar) &&& (0x80 >>> j) ≠ 0) :
    ∀ k row, row ≤ r → r < row + k →
      hitRows mem ar xc y row k (xc + j + (y + r) * 64) = true := by
  intro k
  induction k with
  | zero => intro row h1 h2; omega
  | succ k ih =>
    intro row h1 h2
    simp only [hitRows, Bool.or_eq_true]
    by_cases hr : r = row
    · subst hr
      exact Or.inl (hitCol_true _ _ _ j hbit 8 0 (by omega) (by omega))
    · exact Or.inr (ih (row + 1) (by omega) (by omega))

theorem drawCols_ok (xc yb sprite : Nat) (hxc : xc + 7 < 64) (hyb : yb < 32) :
    ∀ k col (scr : Nat → Nat) (vf : Nat), col + k ≤ 8 →
    drawCols xc yb sprite col k scr vf =
      .ok (fun c => if hitCol sprite xc yb col k c then scr c ^^^ 1 else scr c,
           if colCollide sprite xc yb scr col k then 1 else vf) := by
  intro k
  induction k with
  | zero =>
    intro col scr vf h
    simp [drawCols, hitCol, colCollide]
  | succ k ih =>
    intro col scr vf h
    by_cases hbit : sprite &&& (0x80 >>> col) = 0
    · simp only [drawCols]
      rw [if_neg (fun hne => hne hbit), ih (col + 1) scr vf (by omega)]
      congr 1
      congr 1
      · funext c
        simp [hitCol, hbit]
      · simp [colCollide, hbit]
    · simp only [drawCols]
      rw [if_pos hbit, if_pos (show xc + col + yb * 64 < 2048 by omega),
          ih (col + 1) _ _ (by omega)]
      congr 1
      congr 1
      · funext c
        by_cases hc : c = xc + col + yb * 64
        · subst hc
          have hfar : hitCol sprite xc yb (col + 1) k (xc + col + yb * 64) = false := by
            cases hcol : hitCol sprite xc yb (col + 1) k (xc + col + yb * 64)
            · rfl
            · exact absurd (hitCol_bounds sprite xc yb k (col + 1) _ hcol) (by omega)
          simp [hitCol, hfar, hbit, upd]
        · have hupd : upd scr (xc + col + yb * 64)
              (scr (xc + col + yb * 64) ^^^ 1) c = scr c := by
            simp [upd, hc]
          simp [hitCol, hbit, hc, hupd]
      · have hcong : colCollide sprite xc yb
            (upd scr (xc + col + yb * 64) (scr (xc + col + yb * 64) ^^^ 1))
            (col + 1) k = colCollide sprite xc yb scr (col + 1) k := by
          apply colCollide_congr
          intro j h1 h2
          simp [upd, show xc + j + yb * 64 ≠ xc + col + yb * 64 from by omega]
        rw [hcong]
        simp only [colCollide, Bool.or_eq_true, Bool.and_eq_true, decide_eq_true_eq]
        cases hA : colCollide sprite xc yb scr (col + 1) k <;>
          by_cases hB : scr (xc + col + yb * 64) = 1 <;>
            simp [hA, hB, hbit]


theorem rowCollide_congr (mem : Nat → Nat) (ar xc y : Nat) :
    ∀ k row (scr1 scr2 : Nat → Nat),
      (∀ r j, row ≤ r → r < row + k → j < 8 →
        scr1 (xc + j + (y + r) * 64) = scr2 (xc + j + (y + r) * 64)) →
      rowCollide mem ar xc y scr1 row k = rowCollide mem ar xc y scr2 row k := by
  intro k
  induction k with
  | zero => intro row scr1 scr2 h; simp [rowCollide]
  | succ k ih =>
    intro row scr1 scr2 h
    simp only [rowCollide]
    rw [colCollide_congr (mem (row + ar)) xc (y + row) 8 0 scr1 scr2
          (fun j h1 h2 => h row j (by omega) (by omega) (by omega)),
        ih (row + 1) scr1 scr2 (fun r j h1 h2 h3 => h r j (by omega) (by omega) h3)]

theorem drawRows_ok (mem : Nat → Nat) (ar xc y : Nat) (hxc : xc + 7 < 64) :
    ∀ k row (scr : Nat → Nat) (vf : Nat), y + row + k ≤ 32 → ar + row + k ≤ 4096 →
    drawRows mem ar xc y row k scr vf =
      .ok (fun c => if hitRows mem ar xc y row k c then scr c ^^^ 1 else scr c,
           if rowCollide mem ar xc y scr row k then 1 else vf) := by
  intro k
  induction k with
  | zero =>
    intro row scr vf h1 h2
    simp [drawRows, hitRows, rowCollide]
  | succ k ih =>
    intro row scr vf h1 h2
    simp only [drawRows]
    rw [if_pos (show row + ar < 4096 by omega),
        drawCols_ok xc (y + row) (mem (row + ar)) hxc (by omega) 8 0 scr vf (by omega)]
    trans drawRows mem ar xc y (row + 1) k
        (fun c => if hitCol (mem (row + ar)) xc (y + row) 0 8 c
                  then scr c ^^^ 1 else scr c)
        (if colCollide (mem (row + ar)) xc (y + row) scr 0 8 then 1 else vf)
    · rfl
    rw [ih (row + 1) _ _ (by omega) (by omega)]
    congr 1
    congr 1
    · funext c
      by_cases hA : hitCol (mem (row + ar)) xc (y + row) 0 8 c = true
      · have hB : hitRows mem ar xc y (row + 1) k c = false := by
          cases hrow : hitRows mem ar xc y (row + 1) k c
          · rfl
          · have hub := hitCol_bounds (mem (row + ar)) xc (y + row) 8 0 c hA
            have hlb := hitRows_lower mem ar xc y k (row + 1) c hrow
            omega
        simp [hitRows, hA, hB]
      · have hA0 : hitCol (mem (row + ar)) xc (y + row) 0 8 c = false :=
          Bool.eq_false_iff.mpr hA
        simp [hitRows, hA0]
    · have hcong : rowCollide mem ar xc y
          (fun c => if hitCol (mem (row + ar)) xc (y + row) 0 8 c
                    then scr c ^^^ 1 else scr c) (row + 1) k =
          rowCollide mem ar xc y scr (row + 1) k := by
        apply rowCollide_congr
        intro r j hr1 hr2 hj
        have hfar : hitCol (mem (row + ar)) xc (y + row) 0 8
            (xc + j + (y + r) * 64) = false := by
          cases hcol : hitCol (mem (row + ar)) xc (y + row) 0 8
              (xc + j + (y + r) * 64)
          · rfl
          · have := hitCol_bounds (mem (row + ar)) xc (y + row) 8 0 _ hcol
            omega
        simp [hfar]
      rw [hcong]
      simp only [rowCollide]
      by_cases hA : rowCollide mem ar xc y scr (row + 1) k = true <;>
        by_cases hB : colCollide (mem (row + ar)) xc (y + row) scr 0 8 = true <;>
          simp [hA, hB]

theorem upd_ne (f : Nat → Nat) (k x a : Nat) (h : a ≠ k) : upd f k x a = f a := by
  simp [upd, h]

theorem opcode_d_ok (s : Chip8) (X Y N : Nat) (hX : X < 16) (hY : Y < 16) (hN : N < 16)
    (hop : s.opcode = 0xD000 + 256 * X + 16 * Y + N)
    (hxc : s.v X + 7 < 64) (hyn : s.v Y + N ≤ 32) (harn : s.addr_reg + N ≤ 4096) :
    opcode_d s = .ok {s with
      v := upd s.v 0xF
        (if rowCollide s.memory s.addr_reg (s.v X) (s.v Y) s.screen 0 N then 1 else 0),
      screen := fun c =>
        if hitRows s.memory s.addr_reg (s.v X) (s.v Y) 0 N c
        then s.screen c ^^^ 1 else s.screen c,
      pc := s.pc + 2, draw_flag := true} := by
  have hx : (s.opcode &&& 0x0F00) >>> 8 = X := by rw [hop, mask_x]; omega
  have hy : (s.opcode &&& 0x00F0) >>> 4 = Y := by rw [hop, mask_y]; omega
  have hn : s.opcode &&& 0x000F = N := by rw [hop, mask_f]; omega
  unfold opcode_d
  simp only [hx, hy, hn]
  rw [drawRows_ok s.memory s.addr_reg (s.v X) (s.v Y) hxc N 0 s.screen 0
        (by omega) (by omega)]

def c9zero : Chip8 := { Chip8.init with opcode := 0xD001, addr_reg := 0x100 }

/-- C9 counterexample: drawing the all-zero 1-row sprite at (0,0) twice
(opcode 0xD001, sprite byte 0x00 at I = 0x100) touches no pixel, so the
second draw leaves VF = 0, not the 1 the claim promises for every sprite. -/
theorem double_draw_counterexample :
    ((opcode_d c9zero).bind opcode_d).map (fun t => t.v 0xF) ≠ .ok 1 := by decide

/-- C9 amended: starting from an all-zero framebuffer, executing the same
in-bounds DXYN draw twice (X, Y not 0xF so the coordinates are unchanged
by the first draw's flag write) restores every pixel to its original
value; the first draw leaves VF = 0 and, provided at least one sprite bit
in the N rows is set, the second draw sets VF = 1. -/
theorem double_draw_restores (s : Chip8) (X Y N : Nat)
    (hX : X < 16) (hY : Y < 16) (hN : N < 16) (hXF : X ≠ 0xF) (hYF : Y ≠ 0xF)
    (hop : s.opcode = 0xD000 + 256 * X + 16 * Y + N)
    (hscr : ∀ c, s.screen c = 0)
    (hxc : s.v X + 7 < 64) (hyn : s.v Y + N ≤ 32) (harn : s.addr_reg + N ≤ 4096)
    (hbit : ∃ r j, r < N ∧ j < 8 ∧ s.memory (r + s.addr_reg) &&& (0x80 >>> j) ≠ 0) :
    ∃ s1 s2, opcode_d s = .ok s1 ∧ opcode_d s1 = .ok s2 ∧
      s1.v 0xF = 0 ∧ s2.v 0xF = 1 ∧ (∀ c, s2.screen c = s.screen c) := by
  have hrc1 : rowCollide s.memory s.addr_reg (s.v X) (s.v Y) s.screen 0 N = false :=
    rowCollide_false s.memory s.addr_reg (s.v X) (s.v Y) s.screen
      (fun c => by simp [hscr c]) N 0
  have d1 := opcode_d_ok s X Y N hX hY hN hop hxc hyn harn
  have d2 := opcode_d_ok {s with
      v := upd s.v 0xF
        (if rowCollide s.memory s.addr_reg (s.v X) (s.v Y) s.screen 0 N then 1 else 0),
      screen := fun c =>
        if hitRows s.memory s.addr_reg (s.v X) (s.v Y) 0 N c
        then s.screen c ^^^ 1 else s.screen c,
      pc := s.pc + 2, draw_flag := true} X Y N hX hY hN hop
    (by simpa [upd, hXF] using hxc)
    (by simpa [upd, hYF] using hyn)
    harn
  obtain ⟨r, j, hr, hj, hb⟩ := hbit
  have hhit : hitRows s.memory s.addr_reg (s.v X) (s.v Y) 0 N
      (s.v X + j + (s.v Y + r) * 64) = true :=
    hitRows_true s.memory s.addr_reg (s.v X) (s.v Y) r j hj hb N 0 (by omega) (by omega)
  have hscr1 : (fun c =>
      if hitRows s.memory s.addr_reg (s.v X) (s.v Y) 0 N c
      then s.screen c ^^^ 1 else s.screen c) (s.v X + j + (s.v Y + r) * 64) = 1 := by
    simp [hhit, hscr (s.v X + j + (s.v Y + r) * 64)]
  have hrc2 : rowCollide s.memory s.addr_reg (s.v X) (s.v Y)
      (fun c =>
        if hitRows s.memory s.addr_reg (s.v X) (s.v Y) 0 N c
        then s.screen c ^^^ 1 else s.screen c) 0 N = true :=
    rowCollide_true s.memory s.addr_reg (s.v X) (s.v Y) _ r j hj hb hscr1
      N 0 (by omega) (by omega)
  refine ⟨_, _, d1, d2, ?_, ?_, ?_⟩
  · simp [upd, hrc1]
  · simp [upd, hXF, hYF, hrc2]
  · intro c
    by_cases hh : hitRows s.memory s.addr_reg (s.v X) (s.v Y) 0 N c = true <;>
      simp [upd, hXF, hYF, hh, hscr c]

def c9w : Chip8 :=
  { Chip8.init with
      opcode := 0xD011,
      v := fun i => if i = 0 then 3 else if i = 1 then 2 else 0 }

theorem double_draw_restores_witness :
    ∃ s1 s2, opcode_d c9w = .ok s1 ∧ opcode_d s1 = .ok s2 ∧
      s1.v 0xF = 0 ∧ s2.v 0xF = 1 ∧ (∀ c, s2.screen c = c9w.screen c) :=
  double_draw_restores c9w 0 1 1 (by decide) (by decide) (by decide) (by decide)
    (by decide) rfl (fun c => rfl) (by decide) (by decide) (by decide)
    ⟨0, 0, by decide⟩
